import Mathlib

/-!
Shallow embedding of the notebook execution orchestration layer of the
CoreDB SQL-notebook frontend (src/frontend/src/App.tsx).

The stateful React component is modelled as explicit state passing: each
orchestration function of the source (`executeCell`, `executeAllCells`,
`addCell`, `deleteCell`) becomes a pure Lean function from the current
application state (plus the external inputs the source reads: the remote
engine's response, the wall clock, the configured history cap) to the next
state, together with an event trace recording the externally visible
actions (execute requests, result attachment, history append, dispatched
schema refreshes, inter-cell pauses) in the order the source performs them.
-/

namespace CoreDB

/-- JavaScript ASCII whitespace, as removed by `String.prototype.trim`
(the source only ever trims SQL text, which is ASCII). -/
def isJsWhitespace (c : Char) : Bool :=
  c = ' ' || c = '\t' || c = '\n' || c = '\r' || c = '\x0b' || c = '\x0c'

/-- `s.trim()` of JavaScript: strip leading and trailing whitespace. -/
def jsTrim (s : String) : String :=
  String.mk (((s.toList.dropWhile isJsWhitespace).reverse.dropWhile isJsWhitespace).reverse)

/-- `s.toUpperCase()` of JavaScript, on the ASCII range. -/
def jsToUpper (s : String) : String :=
  String.mk (s.toList.map Char.toUpper)

/-- `s.startsWith(p)` of JavaScript. -/
def jsStartsWith (s p : String) : Bool :=
  List.isPrefixOf p.toList s.toList

/-- `l.slice(0, e)` of JavaScript: a negative end counts from the back. -/
def jsSlice0 (l : List α) (e : Int) : List α :=
  if e < 0 then l.take (l.length - (-e).toNat) else l.take e.toNat

/-- JavaScript `a || b` on an optional string `a` (absent and `""` are falsy). -/
def jsOrString (a : Option String) (b : String) : String :=
  match a with
  | some s => if s = "" then b else s
  | none => b

/-- `QueryResult` of App.tsx. Row contents are opaque to the orchestrator;
rows are modelled as field-name/value association lists. `time_ms` is an
abstract duration (the source holds a float it never computes with). -/
structure QueryResult where
  success : Bool
  result : Option (List (List (String × String)))
  columns : Option (List String)
  time_ms : Nat
  message : Option String
  error : Option String
  affected_rows : Option Int
deriving DecidableEq

/-- `QueryHistory` of App.tsx. -/
structure QueryHistory where
  query : String
  timestamp : Nat
  success : Bool
  time_ms : Nat
  affected_rows : Option Int
deriving DecidableEq

/-- `Cell` of App.tsx. -/
structure Cell where
  id : String
  query : String
  result : Option QueryResult
  isExecuting : Bool
  isCollapsed : Bool
deriving DecidableEq

/-- The component state the orchestration layer owns: the `cells` and
`history` `useState` stores and the run-all-in-progress flag. -/
structure AppState where
  cells : List Cell
  history : List QueryHistory
  isRunningAll : Bool
deriving DecidableEq

/-- Outcome of one `axios.post(...)` execute call, as seen by `executeCell`:
either the HTTP call resolves with a `QueryResult` payload (which itself may
report engine failure via `success = false`), or the transport throws,
carrying an optional structured `error.response.data.error` and an optional
`error.message`. -/
inductive EngineResponse where
  | ok (res : QueryResult)
  | transportError (respDataError : Option String) (message : Option String)
deriving DecidableEq

/-- The synthetic `errorResult` built in `executeCell`'s catch block:
`error.response?.data?.error || error.message || 'Unknown error'`. -/
def errorResultOf (respDataError message : Option String) : QueryResult :=
  { success := false
    result := none
    columns := none
    time_ms := 0
    message := none
    error := some (jsOrString respDataError (jsOrString message "Unknown error"))
    affected_rows := none }

/-- The DDL heuristic of App.tsx lines 145-148:
`query.trim().toUpperCase().startsWith('CREATE TABLE') || ...('DROP TABLE')`. -/
def isSchemaMutating (q : String) : Bool :=
  jsStartsWith (jsToUpper (jsTrim q)) "CREATE TABLE" ||
  jsStartsWith (jsToUpper (jsTrim q)) "DROP TABLE"

/-- Externally visible actions of the orchestrator, in program order. -/
inductive Event where
  | execReq (cellId : String) (query : String)
  | resultAttached (cellId : String)
  | histAppend
  | refreshDispatched
  | pause
deriving DecidableEq

/-- Is an event an execute request? -/
def isExecReq : Event → Bool
  | .execReq _ _ => true
  | _ => false

/-- The execute requests recorded in a trace, oldest first. -/
def requestsOf (t : List Event) : List (String × String) :=
  t.filterMap (fun e =>
    match e with
    | .execReq i q => some (i, q)
    | _ => none)

/-- The history entry built on a resolved execute call (App.tsx lines
135-141); `now` is `Date.now()` in milliseconds, divided by 1000 as in the
source (the float fraction is abstracted away). -/
def historyItemOf (cell : Cell) (now : Nat) (res : QueryResult) : QueryHistory :=
  { query := cell.query
    timestamp := now / 1000
    success := res.success
    time_ms := res.time_ms
    affected_rows := res.affected_rows }

/-- The history update of App.tsx line 142:
`[historyItem, ...prev.slice(0, config.MAX_HISTORY_ITEMS - 1)]`,
with `H = config.MAX_HISTORY_ITEMS`. -/
def appendHistory (H : Nat) (item : QueryHistory) (prev : List QueryHistory) : List QueryHistory :=
  item :: jsSlice0 prev ((H : Int) - 1)

/-- The per-cell update pattern `prev.map(c => c.id === cellId ? f(c) : c)`. -/
def updateCell (cells : List Cell) (cellId : String) (f : Cell → Cell) : List Cell :=
  cells.map (fun c => if c.id == cellId then f c else c)

/-- `executeCell` of App.tsx (lines 108-169). `cellsSnap` is the `cells`
array captured by the callback's closure (during a run-all loop this is the
snapshot from the render that created the callback, not the live store);
`st` is the live state the `setCells`/`setHistory` updater functions read.
`now` is the wall clock, `r` the outcome of the execute call, `H` the
configured history cap. Returns the new state and the event trace. -/
def executeCell (H : Nat) (cellsSnap : List Cell) (st : AppState)
    (cellId : String) (now : Nat) (r : EngineResponse) : AppState × List Event :=
  match cellsSnap.find? (fun c => c.id == cellId) with
  | none => (st, [])
  | some cell =>
    if jsTrim cell.query = "" then (st, [])
    else
      let executing := updateCell st.cells cellId
        (fun c => { c with isExecuting := true, result := none })
      let st1 : AppState := { st with cells := executing }
      match r with
      | .ok res =>
        let attached := updateCell st1.cells cellId
          (fun c => { c with result := some res, isExecuting := false })
        let st2 : AppState := { st1 with cells := attached }
        let hist := appendHistory H (historyItemOf cell now res) st2.history
        let st3 : AppState := { st2 with history := hist }
        if res.success && isSchemaMutating cell.query then
          (st3, [.execReq cellId cell.query, .resultAttached cellId,
                 .histAppend, .refreshDispatched])
        else
          (st3, [.execReq cellId cell.query, .resultAttached cellId, .histAppend])
      | .transportError e1 e2 =>
        let attached := updateCell st1.cells cellId
          (fun c => { c with result := some (errorResultOf e1 e2), isExecuting := false })
        let st2 : AppState := { st1 with cells := attached }
        (st2, [.execReq cellId cell.query, .resultAttached cellId])

/-- The event trace of one `executeCell` call. It depends only on the
closure snapshot, the target id and the engine response (not on the live
state or the clock). -/
def runOneTrace (cellsSnap : List Cell) (cellId : String) (r : EngineResponse) : List Event :=
  match cellsSnap.find? (fun c => c.id == cellId) with
  | none => []
  | some cell =>
    if jsTrim cell.query = "" then []
    else
      match r with
      | .ok res =>
        if res.success && isSchemaMutating cell.query then
          [.execReq cellId cell.query, .resultAttached cellId,
           .histAppend, .refreshDispatched]
        else
          [.execReq cellId cell.query, .resultAttached cellId, .histAppend]
      | .transportError _ _ =>
        [.execReq cellId cell.query, .resultAttached cellId]

/-- The `for (const cell of cells) { if (cell.query.trim()) { await
executeCell(cell.id); await ...100ms...; } }` loop of `executeAllCells`
(App.tsx lines 175-181). `env k` is the engine response and `clock k` the
wall clock for the `k`-th loop iteration that passes the non-empty guard. -/
def runAllGo (H : Nat) (cellsSnap : List Cell) (pending : List Cell) (st : AppState)
    (env : Nat → EngineResponse) (clock : Nat → Nat) (k : Nat) : AppState × List Event :=
  match pending with
  | [] => (st, [])
  | c :: rest =>
    if jsTrim c.query = "" then
      runAllGo H cellsSnap rest st env clock k
    else
      let r1 := executeCell H cellsSnap st c.id (clock k) (env k)
      let r2 := runAllGo H cellsSnap rest r1.1 env clock (k + 1)
      (r2.1, r1.2 ++ [Event.pause] ++ r2.2)

/-- `executeAllCells` of App.tsx (lines 172-184): set the run-all flag,
iterate the cell snapshot in store order awaiting each execution and a
100 ms pause, then clear the flag. -/
def executeAllCells (H : Nat) (st : AppState)
    (env : Nat → EngineResponse) (clock : Nat → Nat) : AppState × List Event :=
  let r := runAllGo H st.cells st.cells { st with isRunningAll := true } env clock 0
  ({ r.1 with isRunningAll := false }, r.2)

/-- The per-cell trace segments of a run-all loop: one segment per
snapshot cell passing the non-empty guard, each consisting of that cell's
full `executeCell` trace followed by the inter-cell pause. -/
def runAllSegments (cellsSnap : List Cell) (pending : List Cell)
    (env : Nat → EngineResponse) (k : Nat) : List (List Event) :=
  match pending with
  | [] => []
  | c :: rest =>
    if jsTrim c.query = "" then
      runAllSegments cellsSnap rest env k
    else
      (runOneTrace cellsSnap c.id (env k) ++ [Event.pause]) ::
        runAllSegments cellsSnap rest env (k + 1)

/-- The cell created by `addCell` (App.tsx lines 187-196); `now` is the
`Date.now()` value read when the button is clicked. -/
def mkNewCell (now : Nat) : Cell :=
  { id := "cell-" ++ toString now
    query := ""
    result := none
    isExecuting := false
    isCollapsed := false }

/-- `addCell` of App.tsx: append the new cell at the end. -/
def addCell (st : AppState) (now : Nat) : AppState :=
  { st with cells := st.cells ++ [mkNewCell now] }

/-- `deleteCell` of App.tsx (lines 199-202): no-op when at most one cell
remains, otherwise remove every cell whose id matches. -/
def deleteCell (st : AppState) (cellId : String) : AppState :=
  if st.cells.length ≤ 1 then st
  else { st with cells := st.cells.filter (fun c => c.id != cellId) }

/-- The add/delete command alphabet of the cell store. -/
inductive CellCmd where
  | add (now : Nat)
  | del (cellId : String)
deriving DecidableEq

/-- One store command step. -/
def applyCmd (st : AppState) : CellCmd → AppState
  | .add now => addCell st now
  | .del i => deleteCell st i

/-- A sequence of store commands. -/
def runCmds (st : AppState) (cmds : List CellCmd) : AppState :=
  cmds.foldl applyCmd st

/-- Does every `add` in the command sequence generate an id not already
live at the moment it runs (true in particular when `Date.now()` is
distinct at every add and never collides with an existing id)? -/
def freshAdds (st : AppState) : List CellCmd → Bool
  | [] => true
  | c :: rest =>
    (match c with
     | .add now => !((st.cells.map (fun x => x.id)).contains (mkNewCell now).id)
     | .del _ => true) && freshAdds (applyCmd st c) rest

/-- The initial component state (App.tsx lines 55-64): one cell with id
`cell-1` holding the configured default query. -/
def initState (defaultQuery : String) : AppState :=
  { cells := [{ id := "cell-1"
                query := defaultQuery
                result := none
                isExecuting := false
                isCollapsed := false }]
    history := []
    isRunningAll := false }

/-- A sample successful engine payload, used to instantiate theorems. -/
def sampleOk : QueryResult :=
  { success := true
    result := none
    columns := none
    time_ms := 1
    message := some "OK"
    error := none
    affected_rows := none }

/-- A sample engine-reported failure payload. -/
def sampleFail : QueryResult :=
  { success := false
    result := none
    columns := none
    time_ms := 1
    message := none
    error := some "syntax error"
    affected_rows := none }

/-- The trace of `executeCell` does not depend on the live state or clock. -/
theorem executeCell_snd_eq (H : Nat) (snap : List Cell) (st : AppState)
    (cellId : String) (now : Nat) (r : EngineResponse) :
    (executeCell H snap st cellId now r).2 = runOneTrace snap cellId r := by
  unfold executeCell runOneTrace
  cases h : snap.find? (fun c => c.id == cellId) with
  | none => rfl
  | some cell =>
    by_cases hq : jsTrim cell.query = ""
    · simp [hq]
    · cases r with
      | ok res =>
        by_cases hs : res.success && isSchemaMutating cell.query
        · simp [hq, hs]
        · simp [hq, hs]
      | transportError e1 e2 => simp [hq]

/-- Any cell matching the updated id satisfies what the update function
forces; other cells are untouched by `updateCell`. -/
theorem updateCell_target (cells : List Cell) (cellId : String) (f : Cell → Cell)
    (P : Cell → Prop) (hf : ∀ a, P (f a)) :
    ∀ c ∈ updateCell cells cellId f, c.id = cellId → P c := by
  intro c hc hid
  simp only [updateCell, List.mem_map] at hc
  obtain ⟨a, _, hEq⟩ := hc
  by_cases hb : a.id == cellId
  · rw [if_pos hb] at hEq
    exact hEq ▸ hf a
  · rw [if_neg hb] at hEq
    subst hEq
    exact absurd (by simp [hid]) hb

/-- C10: calling runOne with an id that matches no cell in the store is a
no-op — no execute request is issued and no state is changed. -/
theorem executeCell_unknown_id_noop (H : Nat) (st : AppState) (cellId : String)
    (now : Nat) (r : EngineResponse)
    (h : st.cells.find? (fun c => c.id == cellId) = none) :
    executeCell H st.cells st cellId now r = (st, []) := by
  unfold executeCell
  rw [h]

theorem executeCell_unknown_id_noop_witness :
    (initState "SELECT 1").cells.find? (fun c => c.id == "cell-9") = none ∧
    executeCell 50 (initState "SELECT 1").cells (initState "SELECT 1") "cell-9" 0
      (EngineResponse.transportError none none) = (initState "SELECT 1", []) :=
  ⟨by decide,
   executeCell_unknown_id_noop 50 (initState "SELECT 1") "cell-9" 0
     (EngineResponse.transportError none none) (by decide)⟩

/-- Predicate: the event is a result attachment for the given cell. -/
def isResultAttach (cellId : String) : Event → Bool
  | .resultAttached i => i == cellId
  | _ => false

/-- The cells of the state `executeCell` leaves behind, when the guard
passed: the set-executing update followed by the attach update. -/
theorem executeCell_cells_eq (H : Nat) (snap : List Cell) (st : AppState)
    (cellId : String) (now : Nat) (r : EngineResponse) (cell : Cell)
    (hfind : snap.find? (fun c => c.id == cellId) = some cell)
    (hq : jsTrim cell.query ≠ "") :
    (executeCell H snap st cellId now r).1.cells =
      updateCell (updateCell st.cells cellId
          (fun c => { c with isExecuting := true, result := none })) cellId
        (match r with
         | .ok res => fun c => { c with result := some res, isExecuting := false }
         | .transportError e1 e2 =>
            fun c => { c with result := some (errorResultOf e1 e2), isExecuting := false }) := by
  unfold executeCell
  rw [hfind]
  cases r with
  | ok res =>
    by_cases hs : res.success && isSchemaMutating cell.query
    · simp [hq, hs]
    · simp [hq, hs]
  | transportError e1 e2 => simp [hq]

/-- A guard-passing `executeCell` records exactly one result attachment. -/
theorem runOneTrace_countP_attach (snap : List Cell) (cellId : String)
    (r : EngineResponse) (cell : Cell)
    (hfind : snap.find? (fun c => c.id == cellId) = some cell)
    (hq : jsTrim cell.query ≠ "") :
    (runOneTrace snap cellId r).countP (isResultAttach cellId) = 1 := by
  unfold runOneTrace
  rw [hfind]
  cases r with
  | ok res =>
    by_cases hs : res.success && isSchemaMutating cell.query
    · simp [hq, hs, isResultAttach, List.countP_cons]
    · simp [hq, hs, isResultAttach, List.countP_cons]
  | transportError e1 e2 => simp [hq, isResultAttach, List.countP_cons]

/-- C2: once an invocation of runOne that actually starts executing
settles — engine success, engine-reported failure, or transport throw —
the targeted cell's `isExecuting` is false and a result is attached, and
the trace records exactly one result attachment for that cell. -/
theorem executeCell_settles (H : Nat) (st : AppState) (cellId : String)
    (now : Nat) (r : EngineResponse) (cell : Cell)
    (hfind : st.cells.find? (fun c => c.id == cellId) = some cell)
    (hq : jsTrim cell.query ≠ "") :
    (∀ c ∈ (executeCell H st.cells st cellId now r).1.cells,
      c.id = cellId → c.isExecuting = false ∧ c.result.isSome = true) ∧
    (executeCell H st.cells st cellId now r).2.countP (isResultAttach cellId) = 1 := by
  refine ⟨?_, ?_⟩
  · intro c hc hid
    rw [executeCell_cells_eq H st.cells st cellId now r cell hfind hq] at hc
    refine updateCell_target _ cellId _
      (fun c => c.isExecuting = false ∧ c.result.isSome = true) ?_ c hc hid
    intro a
    cases r with
    | ok res => exact ⟨rfl, rfl⟩
    | transportError e1 e2 => exact ⟨rfl, rfl⟩
  · rw [executeCell_snd_eq]
    exact runOneTrace_countP_attach st.cells cellId r cell hfind hq

theorem executeCell_settles_witness :
    (initState "SELECT 1").cells.find? (fun c => c.id == "cell-1") =
      some { id := "cell-1", query := "SELECT 1", result := none,
             isExecuting := false, isCollapsed := false } ∧
    jsTrim "SELECT 1" ≠ "" ∧
    (executeCell 50 (initState "SELECT 1").cells (initState "SELECT 1") "cell-1" 0
      (EngineResponse.transportError none none)).2.countP (isResultAttach "cell-1") = 1 :=
  ⟨by decide, by decide,
   (executeCell_settles 50 (initState "SELECT 1") "cell-1" 0
     (EngineResponse.transportError none none)
     { id := "cell-1", query := "SELECT 1", result := none,
       isExecuting := false, isCollapsed := false }
     (by decide) (by decide)).2⟩

/-- A state whose single cell is already executing a non-empty query. -/
def busyState : AppState :=
  { cells := [{ id := "cell-1", query := "SELECT 1", result := none,
                isExecuting := true, isCollapsed := false }]
    history := []
    isRunningAll := false }

/-- C5 counterexample: `executeCell` holds no already-executing check — on
a cell with `isExecuting = true` and a non-empty query, runOne still issues
the execute request and changes state, so it is not a no-op. -/
theorem executeCell_ignores_isExecuting :
    requestsOf (executeCell 50 busyState.cells busyState "cell-1" 0
      (EngineResponse.ok sampleOk)).2 = [("cell-1", "SELECT 1")] ∧
    (executeCell 50 busyState.cells busyState "cell-1" 0
      (EngineResponse.ok sampleOk)).1 ≠ busyState := by decide

/-- C5 amended: runOne is a no-op (empty trace, unchanged state) exactly
when the targeted cell is missing or its query is empty/whitespace-only;
the already-executing guard lives in the presentation layer (the disabled
run button), not in the orchestrator. -/
theorem executeCell_noop_iff (H : Nat) (st : AppState) (cellId : String)
    (now : Nat) (r : EngineResponse) :
    ((executeCell H st.cells st cellId now r).2 = [] ↔
      (st.cells.find? (fun c => c.id == cellId)).all
        (fun cell => jsTrim cell.query == "") = true) ∧
    ((executeCell H st.cells st cellId now r).2 = [] →
      (executeCell H st.cells st cellId now r).1 = st) := by
  unfold executeCell
  cases h : st.cells.find? (fun c => c.id == cellId) with
  | none => simp
  | some cell =>
    by_cases hq : jsTrim cell.query = ""
    · simp [hq]
    · cases r with
      | ok res =>
        by_cases hs : res.success && isSchemaMutating cell.query
        · simp [hq, hs]
        · simp [hq, hs]
      | transportError e1 e2 => simp [hq]

theorem executeCell_noop_iff_witness :
    ((initState "   ").cells.find? (fun c => c.id == "cell-1")).all
      (fun cell => jsTrim cell.query == "") = true ∧
    (executeCell 50 (initState "   ").cells (initState "   ") "cell-1" 0
      (EngineResponse.ok sampleOk)).2 = [] ∧
    (executeCell 50 (initState "   ").cells (initState "   ") "cell-1" 0
      (EngineResponse.ok sampleOk)).1 = initState "   " := by
  have h := executeCell_noop_iff 50 (initState "   ") "cell-1" 0 (EngineResponse.ok sampleOk)
  have htr : (executeCell 50 (initState "   ").cells (initState "   ") "cell-1" 0
      (EngineResponse.ok sampleOk)).2 = [] := h.1.mpr (by decide)
  exact ⟨by decide, htr, h.2 htr⟩

/-- C8: a schema-cache refresh is dispatched by runOne exactly when the
engine call resolved with success and the trimmed, upper-cased query text
begins with CREATE TABLE or DROP TABLE; in particular a successful
mixed-case, whitespace-led CREATE TABLE statement qualifies while a SELECT
does not. -/
theorem schema_refresh_iff (H : Nat) (st : AppState) (cellId : String)
    (now : Nat) (r : EngineResponse) (cell : Cell)
    (hfind : st.cells.find? (fun c => c.id == cellId) = some cell)
    (hq : jsTrim cell.query ≠ "") :
    (Event.refreshDispatched ∈ (executeCell H st.cells st cellId now r).2 ↔
      ∃ res, r = EngineResponse.ok res ∧ res.success = true ∧
        isSchemaMutating cell.query = true) ∧
    isSchemaMutating "  create table t (id int primary key);" = true ∧
    isSchemaMutating "SELECT * FROM t;" = false := by
  refine ⟨?_, by decide, by decide⟩
  rw [executeCell_snd_eq]
  unfold runOneTrace
  rw [hfind]
  cases r with
  | ok res =>
    by_cases hs : res.success && isSchemaMutating cell.query
    · rw [Bool.and_eq_true] at hs
      simp [hq, hs]
    · rw [Bool.and_eq_true] at hs
      simp [hq, hs]
  | transportError e1 e2 => simp [hq]

theorem schema_refresh_iff_witness :
    (initState "  create table t (id int primary key);").cells.find?
      (fun c => c.id == "cell-1") =
      some { id := "cell-1", query := "  create table t (id int primary key);",
             result := none, isExecuting := false, isCollapsed := false } ∧
    jsTrim "  create table t (id int primary key);" ≠ "" ∧
    Event.refreshDispatched ∈
      (executeCell 50 (initState "  create table t (id int primary key);").cells
        (initState "  create table t (id int primary key);") "cell-1" 0
        (EngineResponse.ok sampleOk)).2 :=
  ⟨by decide, by decide,
   (schema_refresh_iff 50 (initState "  create table t (id int primary key);")
     "cell-1" 0 (EngineResponse.ok sampleOk)
     { id := "cell-1", query := "  create table t (id int primary key);",
       result := none, isExecuting := false, isCollapsed := false }
     (by decide) (by decide)).1.mpr ⟨sampleOk, rfl, rfl, by decide⟩⟩

/-- The first cell of the initial state with the default query SELECT 1. -/
def cellSel : Cell :=
  { id := "cell-1", query := "SELECT 1", result := none,
    isExecuting := false, isCollapsed := false }

/-- C4 counterexample: on a transport failure the execute request was
issued and the invocation completed, yet no history entry is appended —
the history stays empty. -/
theorem transport_failure_skips_history :
    requestsOf (executeCell 50 (initState "SELECT 1").cells (initState "SELECT 1")
      "cell-1" 0 (EngineResponse.transportError none none)).2 = [("cell-1", "SELECT 1")] ∧
    (executeCell 50 (initState "SELECT 1").cells (initState "SELECT 1")
      "cell-1" 0 (EngineResponse.transportError none none)).1.history = [] := by decide

/-- C4 amended: a runOne invocation that issues an execute request appends
exactly one history entry when the transport call resolves (whether the
engine reports success or failure); when the transport throws, the history
is left unchanged. -/
theorem history_append_on_resolve (H : Nat) (st : AppState) (cellId : String)
    (now : Nat) (cell : Cell)
    (hfind : st.cells.find? (fun c => c.id == cellId) = some cell)
    (hq : jsTrim cell.query ≠ "") :
    (∀ res, (executeCell H st.cells st cellId now (EngineResponse.ok res)).1.history =
      appendHistory H (historyItemOf cell now res) st.history) ∧
    (∀ e1 e2, (executeCell H st.cells st cellId now
      (EngineResponse.transportError e1 e2)).1.history = st.history) := by
  constructor
  · intro res
    unfold executeCell
    rw [hfind]
    by_cases hs : res.success && isSchemaMutating cell.query
    · simp [hq, hs]
    · simp [hq, hs]
  · intro e1 e2
    unfold executeCell
    rw [hfind]
    simp [hq]

theorem history_append_on_resolve_witness :
    (initState "SELECT 1").cells.find? (fun c => c.id == "cell-1") = some cellSel ∧
    jsTrim "SELECT 1" ≠ "" ∧
    (executeCell 50 (initState "SELECT 1").cells (initState "SELECT 1") "cell-1" 0
      (EngineResponse.ok sampleFail)).1.history =
      appendHistory 50 (historyItemOf cellSel 0 sampleFail) [] :=
  ⟨by decide, by decide,
   (history_append_on_resolve 50 (initState "SELECT 1") "cell-1" 0 cellSel
     (by decide) (by decide)).1 sampleFail⟩

/-- `l.slice(0, e)` for a non-negative end index is a take. -/
theorem jsSlice0_of_nonneg (l : List α) (e : Int) (he : 0 ≤ e) :
    jsSlice0 l e = l.take e.toNat := by
  unfold jsSlice0
  rw [if_neg (by omega)]

/-- Length of one bounded-history insertion. -/
theorem appendHistory_length (H : Nat) (hH : 1 ≤ H) (item : QueryHistory)
    (prev : List QueryHistory) :
    (appendHistory H item prev).length = 1 + min (H - 1) prev.length := by
  unfold appendHistory
  rw [jsSlice0_of_nonneg _ _ (by omega)]
  simp [List.length_take]
  omega

/-- Length of a fold of bounded-history insertions. -/
theorem foldl_appendHistory_length (H : Nat) (hH : 1 ≤ H) :
    ∀ (es acc : List QueryHistory), es ≠ [] →
      (es.foldl (fun a e => appendHistory H e a) acc).length = min (acc.length + es.length) H := by
  intro es
  induction es with
  | nil => intro acc h; exact absurd rfl h
  | cons e rest ih =>
    intro acc _
    rw [List.foldl_cons]
    by_cases hr : rest = []
    · subst hr
      rw [List.foldl_nil, appendHistory_length H hH]
      simp
      omega
    · rw [ih _ hr, appendHistory_length H hH]
      simp [List.length_cons]
      omega

/-- Head of a fold of bounded-history insertions: the last entry folded in. -/
theorem foldl_appendHistory_head (H : Nat) :
    ∀ (es acc : List QueryHistory), es ≠ [] →
      (es.foldl (fun a e => appendHistory H e a) acc).head? = es.getLast? := by
  intro es
  induction es with
  | nil => intro acc h; exact absurd rfl h
  | cons e rest ih =>
    intro acc _
    rw [List.foldl_cons]
    cases rest with
    | nil => simp [appendHistory]
    | cons r rs =>
      rw [ih _ (by simp), List.getLast?_cons_cons]

/-- C7: history is bounded and most-recent-first — each append inserts at
the front and caps the log at H (for a positive configured cap H), and
after appending H + k entries (k ≥ 1) into an empty log the length is
exactly H and the head is the most recently appended entry. -/
theorem history_bounded (H k : Nat) (es : List QueryHistory)
    (hH : 1 ≤ H) (hlen : es.length = H + k) (hk : 1 ≤ k) :
    (es.foldl (fun acc e => appendHistory H e acc) []).length = H ∧
    (es.foldl (fun acc e => appendHistory H e acc) []).head? = es.getLast? ∧
    ∀ (item : QueryHistory) (prev : List QueryHistory),
      (appendHistory H item prev).head? = some item ∧
      (appendHistory H item prev).length ≤ H := by
  have hne : es ≠ [] := by
    intro h
    rw [h] at hlen
    simp at hlen
    omega
  refine ⟨?_, foldl_appendHistory_head H es [] hne, ?_⟩
  · rw [foldl_appendHistory_length H hH es [] hne, hlen]
    simp only [List.length_nil]
    omega
  · intro item prev
    refine ⟨rfl, ?_⟩
    rw [appendHistory_length H hH]
    omega

/-- A sample history entry for instantiating the bounded-history theorem. -/
def sampleEntry (n : Nat) : QueryHistory :=
  { query := "q", timestamp := n, success := true, time_ms := 0, affected_rows := none }

theorem history_bounded_witness :
    1 ≤ 2 ∧ [sampleEntry 1, sampleEntry 2, sampleEntry 3].length = 2 + 1 ∧ 1 ≤ 1 ∧
    ([sampleEntry 1, sampleEntry 2, sampleEntry 3].foldl
      (fun acc e => appendHistory 2 e acc) []).length = 2 :=
  ⟨by decide, by decide, by decide,
   (history_bounded 2 1 [sampleEntry 1, sampleEntry 2, sampleEntry 3]
     (by decide) (by decide) (by decide)).1⟩

/-- Store invariant: starting from a non-empty store with distinct ids,
any command sequence whose adds all generate fresh ids keeps the store
non-empty with distinct ids. -/
theorem runCmds_invariant (cmds : List CellCmd) :
    ∀ st : AppState, 1 ≤ st.cells.length →
      (st.cells.map (fun c => c.id)).Nodup → freshAdds st cmds = true →
      1 ≤ (runCmds st cmds).cells.length ∧
        ((runCmds st cmds).cells.map (fun c => c.id)).Nodup := by
  induction cmds with
  | nil =>
    intro st h1 h2 _
    exact ⟨h1, h2⟩
  | cons c rest ih =>
    intro st h1 h2 hf
    have hrun : runCmds st (c :: rest) = runCmds (applyCmd st c) rest := rfl
    rw [hrun]
    cases c with
    | add now =>
      simp only [freshAdds, Bool.and_eq_true] at hf
      obtain ⟨hg, hrest⟩ := hf
      have hnotin : (mkNewCell now).id ∉ st.cells.map (fun x => x.id) := by
        simpa using hg
      refine ih _ ?_ ?_ hrest
      · simp [applyCmd, addCell]
      · simp only [applyCmd, addCell, List.map_append, List.map_cons, List.map_nil,
          List.nodup_append]
        refine ⟨h2, List.nodup_singleton _, ?_⟩
        intro a ha hb
        simp only [List.mem_singleton] at hb
        exact hnotin (hb ▸ ha)
    | del i =>
      simp only [freshAdds, Bool.and_eq_true] at hf
      obtain ⟨-, hrest⟩ := hf
      by_cases hl : st.cells.length ≤ 1
      · have hid : applyCmd st (CellCmd.del i) = st := by
          simp [applyCmd, deleteCell, hl]
        rw [hid]
        rw [hid] at hrest
        exact ih st h1 h2 hrest
      · have hcells : 1 ≤ (st.cells.filter (fun c => c.id != i)).length := by
          rcases hcs : st.cells with _ | ⟨a, rest2⟩
          · rw [hcs] at h1
            simp at h1
          · rcases rest2 with _ | ⟨b, rest3⟩
            · rw [hcs] at hl
              simp at hl
            · rw [hcs] at h2
              simp only [List.map_cons, List.nodup_cons, List.mem_cons] at h2
              have hab : a.id ≠ b.id := fun he => h2.1 (Or.inl he)
              by_cases hai : a.id = i
              · have hbi : b.id ≠ i := fun hbi => hab (by rw [hai, hbi])
                have hbmem : b ∈ (a :: b :: rest3).filter (fun c => c.id != i) := by
                  simp [List.mem_filter, hbi]
                exact List.length_pos_of_mem hbmem
              · have hamem : a ∈ (a :: b :: rest3).filter (fun c => c.id != i) := by
                  simp [List.mem_filter, hai]
                exact List.length_pos_of_mem hamem
        have hnd : ((st.cells.filter (fun c => c.id != i)).map (fun x => x.id)).Nodup := by
          have hsub : (st.cells.filter (fun c => c.id != i)).Sublist st.cells :=
            List.filter_sublist st.cells
          exact h2.sublist (hsub.map (fun x => x.id))
        have hdel : applyCmd st (CellCmd.del i) =
            { st with cells := st.cells.filter (fun c => c.id != i) } := by
          simp [applyCmd, deleteCell, hl]
        rw [hdel]
        rw [hdel] at hrest
        exact ih _ hcells hnd hrest

/-- C3 counterexample: two adds in the same millisecond produce duplicate
ids (both `cell-5`), deleting `cell-1` leaves two cells sharing an id, and
deleting `cell-5` removes both at once — the store is emptied. -/
theorem cellStore_emptied_by_duplicate_ids :
    (runCmds (initState "SELECT 1")
      [CellCmd.add 5, CellCmd.add 5, CellCmd.del "cell-1",
       CellCmd.del "cell-5"]).cells = [] := by decide

/-- C3 amended: provided every add generates a fresh id (true whenever the
`Date.now()` values at adds are distinct and never collide with a live id),
the store never holds fewer than one cell under any add/delete sequence,
and a delete when exactly one cell remains is a no-op. -/
theorem cellStore_never_empty (cmds : List CellCmd) (st : AppState)
    (h1 : 1 ≤ st.cells.length) (h2 : (st.cells.map (fun c => c.id)).Nodup)
    (h3 : freshAdds st cmds = true) :
    1 ≤ (runCmds st cmds).cells.length ∧
    ∀ (s : AppState) (i : String), s.cells.length = 1 → deleteCell s i = s := by
  refine ⟨(runCmds_invariant cmds st h1 h2 h3).1, ?_⟩
  intro s i hs
  unfold deleteCell
  rw [if_pos (by omega)]

theorem cellStore_never_empty_witness :
    1 ≤ (initState "SELECT 1").cells.length ∧
    ((initState "SELECT 1").cells.map (fun c => c.id)).Nodup ∧
    freshAdds (initState "SELECT 1")
      [CellCmd.add 5, CellCmd.add 7, CellCmd.del "cell-5"] = true ∧
    1 ≤ (runCmds (initState "SELECT 1")
      [CellCmd.add 5, CellCmd.add 7, CellCmd.del "cell-5"]).cells.length :=
  ⟨by decide, by decide, by decide,
   (cellStore_never_empty [CellCmd.add 5, CellCmd.add 7, CellCmd.del "cell-5"]
     (initState "SELECT 1") (by decide) (by decide) (by decide)).1⟩

/-- C9 counterexample: two adds at the same `Date.now()` value create two
live cells sharing the id `cell-5`. -/
theorem duplicate_add_timestamps_share_id :
    ¬ ((runCmds (initState "SELECT 1") [CellCmd.add 5, CellCmd.add 5]).cells.map
        (fun c => c.id)).Nodup := by decide

/-- C9 amended: provided every add generates a fresh id, no two live cells
ever share an id under any add/delete sequence; and ids are stable — a
store command never alters an existing cell: every cell in the new store
is an untouched cell of the old store or the freshly added cell. -/
theorem cell_ids_unique_and_stable (cmds : List CellCmd) (st : AppState)
    (h1 : 1 ≤ st.cells.length) (h2 : (st.cells.map (fun c => c.id)).Nodup)
    (h3 : freshAdds st cmds = true) :
    ((runCmds st cmds).cells.map (fun c => c.id)).Nodup ∧
    ∀ (s : AppState) (cmd : CellCmd), ∀ c ∈ (applyCmd s cmd).cells,
      c ∈ s.cells ∨ ∃ n, cmd = CellCmd.add n ∧ c = mkNewCell n := by
  refine ⟨(runCmds_invariant cmds st h1 h2 h3).2, ?_⟩
  intro s cmd c hc
  cases cmd with
  | add n =>
    simp only [applyCmd, addCell, List.mem_append, List.mem_singleton] at hc
    rcases hc with hc | hc
    · exact Or.inl hc
    · exact Or.inr ⟨n, rfl, hc⟩
  | del i =>
    simp only [applyCmd, deleteCell] at hc
    by_cases hl : s.cells.length ≤ 1
    · rw [if_pos hl] at hc
      exact Or.inl hc
    · rw [if_neg hl] at hc
      exact Or.inl (List.mem_of_mem_filter hc)

theorem cell_ids_unique_and_stable_witness :
    freshAdds (initState "SELECT 1")
      [CellCmd.add 5, CellCmd.add 7, CellCmd.del "cell-1"] = true ∧
    ((runCmds (initState "SELECT 1")
      [CellCmd.add 5, CellCmd.add 7, CellCmd.del "cell-1"]).cells.map
        (fun c => c.id)).Nodup :=
  ⟨by decide,
   (cell_ids_unique_and_stable [CellCmd.add 5, CellCmd.add 7, CellCmd.del "cell-1"]
     (initState "SELECT 1") (by decide) (by decide) (by decide)).1⟩

/-- The run-all trace is the concatenation of the per-cell segments. -/
theorem runAllGo_trace (H : Nat) (snap : List Cell)
    (env : Nat → EngineResponse) (clock : Nat → Nat) :
    ∀ (pending : List Cell) (st : AppState) (k : Nat),
      (runAllGo H snap pending st env clock k).2 =
        (runAllSegments snap pending env k).flatten := by
  intro pending
  induction pending with
  | nil =>
    intro st k
    rfl
  | cons c rest ih =>
    intro st k
    by_cases hq : jsTrim c.query = ""
    · simp only [runAllGo, runAllSegments, if_pos hq]
      exact ih st k
    · simp only [runAllGo, runAllSegments, if_neg hq, List.flatten_cons]
      rw [executeCell_snd_eq, ih]

/-- Shape of a single-cell trace: empty, or the execute request first and
no further request afterwards. -/
theorem runOneTrace_shape (snap : List Cell) (cellId : String) (r : EngineResponse) :
    runOneTrace snap cellId r = [] ∨
    ∃ q rest, runOneTrace snap cellId r = Event.execReq cellId q :: rest ∧
      ∀ e ∈ rest, isExecReq e = false := by
  unfold runOneTrace
  cases h : snap.find? (fun c => c.id == cellId) with
  | none => exact Or.inl rfl
  | some cell =>
    by_cases hq : jsTrim cell.query = ""
    · exact Or.inl (by simp [hq])
    · cases r with
      | ok res =>
        by_cases hs : res.success && isSchemaMutating cell.query
        · refine Or.inr ⟨cell.query,
            [Event.resultAttached cellId, Event.histAppend, Event.refreshDispatched], ?_, ?_⟩
          · simp [hq, hs]
          · intro e he
            simp only [List.mem_cons, List.not_mem_nil, or_false] at he
            rcases he with rfl | rfl | rfl <;> rfl
        · refine Or.inr ⟨cell.query,
            [Event.resultAttached cellId, Event.histAppend], ?_, ?_⟩
          · simp [hq, hs]
          · intro e he
            simp only [List.mem_cons, List.not_mem_nil, or_false] at he
            rcases he with rfl | rfl <;> rfl
      | transportError e1 e2 =>
        refine Or.inr ⟨cell.query, [Event.resultAttached cellId], ?_, ?_⟩
        · simp [hq]
        · intro e he
          simp only [List.mem_cons, List.not_mem_nil, or_false] at he
          rcases he with rfl
          rfl

/-- Every run-all segment ends with the pause and carries at most one
execute request, situated at the segment's front. -/
theorem runAllSegments_props (snap : List Cell) (env : Nat → EngineResponse) :
    ∀ (pending : List Cell) (k : Nat),
      ∀ seg ∈ runAllSegments snap pending env k,
        seg.getLast? = some Event.pause ∧
        seg.countP isExecReq ≤ 1 ∧
        ∀ e ∈ seg.drop 1, isExecReq e = false := by
  intro pending
  induction pending with
  | nil =>
    intro k seg hseg
    cases hseg
  | cons c rest ih =>
    intro k seg hseg
    by_cases hq : jsTrim c.query = ""
    · simp only [runAllSegments, if_pos hq] at hseg
      exact ih k seg hseg
    · simp only [runAllSegments, if_neg hq, List.mem_cons] at hseg
      rcases hseg with rfl | hseg
      · rcases runOneTrace_shape snap c.id (env k) with h0 | ⟨q, rest2, heq, hrest⟩
        · rw [h0]
          refine ⟨rfl, by simp [isExecReq], ?_⟩
          intro e he
          simp at he
        · rw [heq]
          refine ⟨?_, ?_, ?_⟩
          · rw [List.getLast?_concat]
          · rw [List.cons_append, List.countP_cons, List.countP_append]
            have h2 : rest2.countP isExecReq = 0 :=
              List.countP_eq_zero.mpr (fun a ha => by simp [hrest a ha])
            simp [h2, isExecReq]
          · intro e he
            rw [List.cons_append, List.drop_succ_cons, List.drop_zero] at he
            rcases List.mem_append.mp he with h1 | h1
            · exact hrest e h1
            · rw [List.mem_singleton.mp h1]
              rfl
      · exact ih (k + 1) seg hseg

/-- One segment per non-empty snapshot cell, in store order. -/
theorem runAllSegments_length (snap : List Cell) (env : Nat → EngineResponse) :
    ∀ (pending : List Cell) (k : Nat),
      (runAllSegments snap pending env k).length =
        (pending.filter (fun c => jsTrim c.query != "")).length := by
  intro pending
  induction pending with
  | nil =>
    intro k
    rfl
  | cons c rest ih =>
    intro k
    by_cases hq : jsTrim c.query = ""
    · simp only [runAllSegments, if_pos hq, List.filter_cons]
      rw [ih k]
      simp [hq]
    · simp only [runAllSegments, if_neg hq, List.filter_cons]
      have hb : (jsTrim c.query != "") = true := by
        simp [bne_iff_ne, hq]
      rw [hb]
      simp [ih (k + 1)]

/-- C1: during runAll, cells execute strictly sequentially in store order —
the whole trace is the concatenation of one segment per non-empty cell,
each segment holding its execute request only at its front with the result
attachment, history append and any dispatched schema refresh after it, and
the fixed inter-cell pause closing the segment; hence a later cell's
request is issued only after the earlier cell's completion events and the
pause. -/
theorem executeAllCells_sequential (H : Nat) (st : AppState)
    (env : Nat → EngineResponse) (clock : Nat → Nat) :
    (executeAllCells H st env clock).2 =
      (runAllSegments st.cells st.cells env 0).flatten ∧
    (runAllSegments st.cells st.cells env 0).length =
      (st.cells.filter (fun c => jsTrim c.query != "")).length ∧
    ∀ seg ∈ runAllSegments st.cells st.cells env 0,
      seg.getLast? = some Event.pause ∧
      seg.countP isExecReq ≤ 1 ∧
      ∀ e ∈ seg.drop 1, isExecReq e = false :=
  ⟨runAllGo_trace H st.cells env clock st.cells { st with isRunningAll := true } 0,
   runAllSegments_length st.cells env st.cells 0,
   runAllSegments_props st.cells env st.cells 0⟩

/-- In a store with distinct ids, `find?` by a member's id returns it. -/
theorem find?_self_of_nodup (snap : List Cell)
    (h : (snap.map (fun c => c.id)).Nodup) (c : Cell) (hc : c ∈ snap) :
    snap.find? (fun x => x.id == c.id) = some c := by
  induction snap with
  | nil => cases hc
  | cons a rest ih =>
    simp only [List.map_cons, List.nodup_cons] at h
    rcases List.mem_cons.mp hc with rfl | hm
    · rw [List.find?_cons_of_pos]
      simp
    · have hne : (a.id == c.id) = false := by
        simp only [beq_eq_false_iff_ne, ne_eq]
        intro he
        exact h.1 (he ▸ List.mem_map.mpr ⟨c, hm, rfl⟩)
      rw [List.find?_cons_of_neg]
      · exact ih h.2 hm
      · simp [hne]

/-- Requests distribute over trace concatenation. -/
theorem requestsOf_append (s t : List Event) :
    requestsOf (s ++ t) = requestsOf s ++ requestsOf t := by
  simp [requestsOf, List.filterMap_append]

/-- A guard-passing single-cell trace holds exactly one request: the
target's id and query. -/
theorem requestsOf_runOneTrace (snap : List Cell) (cellId : String)
    (r : EngineResponse) (cell : Cell)
    (hfind : snap.find? (fun c => c.id == cellId) = some cell)
    (hq : jsTrim cell.query ≠ "") :
    requestsOf (runOneTrace snap cellId r) = [(cellId, cell.query)] := by
  unfold runOneTrace
  rw [hfind]
  cases r with
  | ok res =>
    by_cases hs : res.success && isSchemaMutating cell.query
    · simp [hq, hs, requestsOf]
    · simp [hq, hs, requestsOf]
  | transportError e1 e2 => simp [hq, requestsOf]

/-- Whatever the engine responses are, the run-all loop issues one request
per non-empty pending cell, in order. -/
theorem runAllGo_requests (H : Nat) (snap : List Cell)
    (env : Nat → EngineResponse) (clock : Nat → Nat)
    (hnd : (snap.map (fun c => c.id)).Nodup) :
    ∀ (pending : List Cell) (st : AppState) (k : Nat),
      (∀ c ∈ pending, c ∈ snap) →
      requestsOf (runAllGo H snap pending st env clock k).2 =
        (pending.filter (fun c => jsTrim c.query != "")).map (fun c => (c.id, c.query)) := by
  intro pending
  induction pending with
  | nil =>
    intro st k _
    rfl
  | cons c rest ih =>
    intro st k hmem
    have hcsnap : c ∈ snap := hmem c (List.mem_cons_self c rest)
    have hrest : ∀ x ∈ rest, x ∈ snap := fun x hx => hmem x (List.mem_cons_of_mem c hx)
    by_cases hq : jsTrim c.query = ""
    · simp only [runAllGo, if_pos hq, List.filter_cons]
      rw [ih st k hrest]
      simp [hq]
    · simp only [runAllGo, if_neg hq, List.filter_cons]
      have hb : (jsTrim c.query != "") = true := by
        simp [bne_iff_ne, hq]
      rw [hb]
      rw [requestsOf_append, requestsOf_append]
      rw [executeCell_snd_eq]
      rw [requestsOf_runOneTrace snap c.id _ c (find?_self_of_nodup snap hnd c hcsnap) hq]
      rw [ih _ (k + 1) hrest]
      simp [requestsOf]

/-- C6: runAll is fail-soft — for any store with distinct cell ids and for
every assignment of engine outcomes (engine-reported failures and transport
failures included), the loop issues one execute request per non-empty cell,
in store order; the set of executed cells is independent of any failures,
so a failing cell never aborts the run. -/
theorem executeAllCells_failsoft (H : Nat) (st : AppState)
    (env : Nat → EngineResponse) (clock : Nat → Nat)
    (hnd : (st.cells.map (fun c => c.id)).Nodup) :
    requestsOf (executeAllCells H st env clock).2 =
      (st.cells.filter (fun c => jsTrim c.query != "")).map (fun c => (c.id, c.query)) := by
  have h := runAllGo_requests H st.cells env clock hnd st.cells
    { st with isRunningAll := true } 0 (fun c hc => hc)
  simpa [executeAllCells] using h

/-- A three-cell store: a DDL cell, a query cell, an insert cell. -/
def threeCellState : AppState :=
  { cells := [{ id := "cell-1", query := "DROP TABLE t;", result := none,
                isExecuting := false, isCollapsed := false },
              { id := "cell-2", query := "SELECT * FROM t;", result := none,
                isExecuting := false, isCollapsed := false },
              { id := "cell-3", query := "INSERT INTO t VALUES (1);", result := none,
                isExecuting := false, isCollapsed := false }]
    history := []
    isRunningAll := false }

/-- An environment whose first execute call fails at the transport layer
and whose later calls succeed. -/
def envFailFirst : Nat → EngineResponse
  | 0 => .transportError none none
  | _ => .ok sampleOk

theorem executeAllCells_sequential_witness :
    (executeAllCells 50 threeCellState envFailFirst (fun _ => 0)).2 =
      (runAllSegments threeCellState.cells threeCellState.cells envFailFirst 0).flatten :=
  (executeAllCells_sequential 50 threeCellState envFailFirst (fun _ => 0)).1

theorem executeAllCells_failsoft_witness :
    (threeCellState.cells.map (fun c => c.id)).Nodup ∧
    requestsOf (executeAllCells 50 threeCellState envFailFirst (fun _ => 0)).2 =
      (threeCellState.cells.filter (fun c => jsTrim c.query != "")).map
        (fun c => (c.id, c.query)) :=
  ⟨by decide,
   executeAllCells_failsoft 50 threeCellState envFailFirst (fun _ => 0) (by decide)⟩

end CoreDB
